import Mathlib

/-!
# Verification of the `mysite` polls application

A shallow embedding of the `polls` Django application: the persisted
entities (`Question`, `Choice`, `Profile`, `User`, `Comment`) become Lean
structures, database tables become lists of records, timestamps become
integers (seconds), and each view handler becomes a pure function from the
request and the database state to a response (and, for the vote mutation,
a new state).  The embedding follows `src/polls/models.py` and
`src/polls/views.py` line by line.
-/

namespace Polls

/-- Seconds in `datetime.timedelta(days=1)`; timestamps are modelled as
integer seconds. -/
def oneDay : Int := 86400

/-- `polls.models.Question`: `question_text` and `pub_date`
(`models.DateTimeField`), plus the implicit primary key `id`. -/
structure Question where
  id : Nat
  question_text : String
  pub_date : Int
deriving DecidableEq, Repr

/-- `Question.was_published_recently` from `models.py`:
`now - datetime.timedelta(days=1) <= self.pub_date <= now`.
`now` (Python `timezone.now()`) is an explicit argument. -/
def Question.was_published_recently (q : Question) (now : Int) : Bool :=
  now - oneDay ≤ q.pub_date && q.pub_date ≤ now

/-- `polls.models.Choice`: foreign key `question` (stored as the question's
id), `choice_text`, and `votes` (`IntegerField(default=0)`), plus the
implicit primary key `id`. -/
structure Choice where
  id : Nat
  question : Nat
  choice_text : String
  votes : Int
deriving DecidableEq, Repr

/-- `Choice.objects.create(question=..., choice_text=...)`: a fresh choice
takes the field default `votes = 0`. -/
def mkChoice (id question : Nat) (choice_text : String) : Choice :=
  { id := id, question := question, choice_text := choice_text, votes := 0 }

/-- The polls database: the `Question` and `Choice` tables. -/
structure PollState where
  questions : List Question
  choices : List Choice
deriving DecidableEq, Repr

/-- `question.choice_set`: the choices whose foreign key points at the
given question id (in table order). -/
def choice_set (s : PollState) (qid : Nat) : List Choice :=
  s.choices.filter (fun c => c.question == qid)

/-- `Question.is_hidden` from `models.py`:
`self.pub_date > timezone.now() or not self.choice_set.exists()`. -/
def Question.is_hidden (q : Question) (s : PollState) (now : Int) : Bool :=
  decide (q.pub_date > now) || (choice_set s q.id).isEmpty

/-- The descending-votes order of `Choice.Meta.ordering = ['-votes']`. -/
def votesGe (a b : Choice) : Prop := b.votes ≤ a.votes

instance : DecidableRel votesGe := fun a b =>
  inferInstanceAs (Decidable (b.votes ≤ a.votes))

instance : IsTotal Choice votesGe := ⟨fun a b => le_total b.votes a.votes⟩

instance : IsTrans Choice votesGe := ⟨fun _ _ _ h1 h2 => le_trans h2 h1⟩

/-- `question.choice_set.order_by('-votes')` (also the default order from
`Choice.Meta.ordering = ['-votes']`): a stable sort by descending votes. -/
def order_by_votes_desc (cs : List Choice) : List Choice :=
  List.insertionSort votesGe cs

/-- `django.contrib.auth.models.User`, restricted to the fields the polls
app reads: the primary key, `username`, and the `is_staff` /
`is_superuser` flags. -/
structure User where
  id : Nat
  username : String
  is_staff : Bool
  is_superuser : Bool
deriving DecidableEq, Repr

/-- `polls.models.Profile`: one-to-one foreign key `user` (stored as the
user's id) and `bio` (`CharField(default='Please add a profile')`). -/
structure Profile where
  user : Nat
  bio : String
deriving DecidableEq, Repr

/-- The `bio` field default from `models.py`. -/
def defaultBio : String := "Please add a profile"

/-- The auth database: the `User` and `Profile` tables. -/
structure AuthState where
  users : List User
  profiles : List Profile
deriving DecidableEq, Repr

/-- The `post_save` receiver `create_and_save_profile` from `models.py`:
when the saved `User` instance was just `created`, insert
`Profile.objects.create(user=instance)`; otherwise do nothing.  (The
Python parameter `instance` is a reserved word in Lean, hence `inst`.) -/
def create_and_save_profile (profiles : List Profile) (inst : User)
    (created : Bool) : List Profile :=
  if created then profiles ++ [{ user := inst.id, bio := defaultBio }]
  else profiles

/-- Saving a `User` through the ORM: insert it when its primary key is not
yet in the table (Django fires `post_save` with `created=True`), update it
in place otherwise (`created=False`); then run the `post_save` receiver
`create_and_save_profile`. -/
def save_user (st : AuthState) (u : User) : AuthState :=
  let created := ! st.users.any (fun v => v.id == u.id)
  { users :=
      if created then st.users ++ [u]
      else st.users.map (fun v => if v.id == u.id then u else v),
    profiles := create_and_save_profile st.profiles u created }

/-- The number of `Profile` rows whose `user` foreign key is `uid`. -/
def profileCount (st : AuthState) (uid : Nat) : Nat :=
  st.profiles.countP (fun p => p.user == uid)

/-- The possible outcomes of the polls views, abstracting HTTP: a 404, the
`@login_required` redirect to the login page, a rendered template (carrying
the question id and, for `polls/detail.html`, the optional
`error_message`), or a redirect to the results page. -/
inductive Response where
  | notFound : Response
  | loginRedirect : Response
  | renderQuestion (question : Nat) : Response
  | renderResults (question : Nat) : Response
  | renderDetail (question : Nat) (error_message : Option String) : Response
  | redirectResults (question : Nat) : Response
deriving DecidableEq, Repr

/-- The data of an incoming request that the polls views consult: the
authentication state of `request.user` and the `'choice'` key of
`request.POST` (absent or a choice primary key). -/
structure Request where
  is_authenticated : Bool
  is_superuser : Bool
  post_choice : Option Nat
deriving DecidableEq, Repr

/-- `Question.objects` lookup by primary key, as in `get_object_or_404`
and `DetailView.get_object`. -/
def findQuestion (s : PollState) (pk : Nat) : Option Question :=
  s.questions.find? (fun q => q.id == pk)

/-- `question.choice_set.get(pk=cid)`: the choice of the question whose
primary key is `cid`, or `Choice.DoesNotExist` (`none`). -/
def findChoice (cs : List Choice) (cid : Nat) : Option Choice :=
  cs.find? (fun c => c.id == cid)

/-- `QuestionView.get_object` / `ResultsView.get_object` from `views.py`:
fetch the question by pk, then
`if question.is_hidden() and not self.request.user.is_superuser:
raise Http404(...)`. -/
def detail_get_object (s : PollState) (now : Int) (req : Request)
    (pk : Nat) : Option Question :=
  match findQuestion s pk with
  | none => none
  | some q => if q.is_hidden s now && !req.is_superuser then none else some q

/-- `QuestionView` (`GET /polls/<pk>/`): render `polls/question.html`, or
404 when `get_object` raises. -/
def questionView (s : PollState) (now : Int) (req : Request)
    (pk : Nat) : Response :=
  match detail_get_object s now req pk with
  | none => Response.notFound
  | some q => Response.renderQuestion q.id

/-- `ResultsView` (`GET /polls/<pk>/results/`): render
`polls/results.html`, or 404 when `get_object` raises. -/
def resultsView (s : PollState) (now : Int) (req : Request)
    (pk : Nat) : Response :=
  match detail_get_object s now req pk with
  | none => Response.notFound
  | some q => Response.renderResults q.id

/-- The inline error message rendered by `vote` on a missing or invalid
choice: "You didn\x27t select a choice.". -/
def noChoiceMessage : String := "You didn\x27t select a choice."

/-- `save()` on a modified `Choice` instance: write the record back over
the row with the same primary key. -/
def save_choice (s : PollState) (c : Choice) : PollState :=
  { s with choices := s.choices.map (fun d => if d.id == c.id then c else d) }

/-- The `vote` view (`POST /polls/<question_id>/vote/`), from `views.py`:
`@login_required`; `get_object_or_404(Question, pk=question_id)`; look up
`question.choice_set.get(pk=request.POST['choice'])`, re-rendering
`polls/detail.html` with an error message on `KeyError` (missing POST key)
or `Choice.DoesNotExist`; otherwise increment `selected_choice.votes`,
save it, and redirect to the results page.  Returns the response and the
resulting database state. -/
def vote (s : PollState) (req : Request) (question_id : Nat) :
    Response × PollState :=
  if !req.is_authenticated then (Response.loginRedirect, s)
  else
    match findQuestion s question_id with
    | none => (Response.notFound, s)
    | some question =>
      match req.post_choice with
      | none => (Response.renderDetail question.id (some noChoiceMessage), s)
      | some cid =>
        match findChoice (choice_set s question.id) cid with
        | none =>
            (Response.renderDetail question.id (some noChoiceMessage), s)
        | some selected_choice =>
            let updated := { selected_choice with
                              votes := selected_choice.votes + 1 }
            (Response.redirectResults question.id, save_choice s updated)

/-- The `votes` column of the choice with primary key `cid`, read back from
the database (`refresh_from_db` in the tests). -/
def getVotes (s : PollState) (cid : Nat) : Option Int :=
  (findChoice s.choices cid).map Choice.votes

/-- The descending-`pub_date` order used by the index view. -/
def pubDateGe (a b : Question) : Prop := b.pub_date ≤ a.pub_date

instance : DecidableRel pubDateGe := fun a b =>
  inferInstanceAs (Decidable (b.pub_date ≤ a.pub_date))

instance : IsTotal Question pubDateGe := ⟨fun a b => le_total b.pub_date a.pub_date⟩

instance : IsTrans Question pubDateGe := ⟨fun _ _ _ h1 h2 => le_trans h2 h1⟩

/-- `IndexView.get_queryset` from `views.py`:
`Question.objects.filter(pub_date__lte=timezone.now())
.order_by('-pub_date')[:5]`. -/
def get_queryset (questions : List Question) (now : Int) : List Question :=
  (List.insertionSort pubDateGe
    (questions.filter (fun q => decide (q.pub_date ≤ now)))).take 5

/-! ## A two-voter interleaving model of the vote increment

Lines 56-57 of `views.py` perform `selected_choice.votes += 1` followed by
`selected_choice.save()`: the shared counter is first read from the
database row and the incremented value is written back afterwards.  Each
of two concurrent voters on the same choice is therefore a sequence of two
atomic database actions, a read and a write; a schedule interleaves the
two sequences. -/

/-- The atomic database actions of two concurrent executions of the vote
increment: voter 0's read and write, and voter 1's read and write. -/
inductive VoteStep where
  | read0 | write0 | read1 | write1
deriving DecidableEq, Repr

/-- The shared `votes` row plus each voter's in-memory copy of it (the
Python attribute on its own `selected_choice` instance). -/
structure RaceState where
  votes : Int
  temp0 : Int
  temp1 : Int
deriving DecidableEq, Repr

/-- The effect of one atomic action: a read copies the shared counter into
the voter's instance, a write stores that copy plus one back
(`selected_choice.votes += 1; selected_choice.save()`). -/
def raceStep (st : RaceState) : VoteStep → RaceState
  | .read0 => { st with temp0 := st.votes }
  | .write0 => { st with votes := st.temp0 + 1 }
  | .read1 => { st with temp1 := st.votes }
  | .write1 => { st with votes := st.temp1 + 1 }

/-- Run a schedule of atomic actions from an initial state. -/
def runRace (st : RaceState) (sched : List VoteStep) : RaceState :=
  sched.foldl raceStep st

/-- Which voter an atomic action belongs to. -/
def isVoter0 : VoteStep → Bool
  | .read0 => true
  | .write0 => true
  | .read1 => false
  | .write1 => false

/-- A schedule is an interleaving of the two voters when each voter's own
actions occur in program order: read before write. -/
def isInterleaving (sched : List VoteStep) : Prop :=
  sched.filter isVoter0 = [VoteStep.read0, VoteStep.write0]
  ∧ sched.filter (fun a => !isVoter0 a) = [VoteStep.read1, VoteStep.write1]

end Polls

namespace Polls

/-! ## Library lemmas about the embedded lookups -/

/-- A question found by primary key has that primary key. -/
theorem findQuestion_id {s : PollState} {pk : Nat} {q : Question}
    (h : findQuestion s pk = some q) : q.id = pk := by
  have h2 := List.find?_some h
  simpa using h2

/-- With no duplicate primary keys, looking up a member of the table by
its id finds exactly that record. -/
theorem findChoice_eq_some_of_nodup {l : List Choice} {c : Choice}
    (hnd : (l.map Choice.id).Nodup) (hc : c ∈ l) :
    findChoice l c.id = some c := by
  induction l with
  | nil => cases hc
  | cons d t ih =>
    rw [List.map_cons, List.nodup_cons] at hnd
    rcases List.mem_cons.mp hc with rfl | hct
    · simp [findChoice]
    · by_cases hid : d.id = c.id
      · exact absurd (hid ▸ List.mem_map_of_mem Choice.id hct) hnd.1
      · rw [findChoice, List.find?_cons_of_neg _ (by simpa using hid)]
        exact ih hnd.2 hct

/-- Saving a record over the row with its id makes a lookup of that id
return the saved record, provided the id was present. -/
theorem findChoice_save_self {l : List Choice} {cid : Nat} {c sel : Choice}
    (h : findChoice l cid = some c) (hsel : sel.id = cid) :
    findChoice (l.map (fun d => if d.id == sel.id then sel else d)) cid
      = some sel := by
  induction l with
  | nil => simp [findChoice] at h
  | cons d t ih =>
    by_cases hd : d.id = cid
    · rw [List.map_cons, if_pos (by simp [hd, hsel])]
      rw [findChoice, List.find?_cons_of_pos _ (by simp [hsel])]
    · rw [findChoice, List.find?_cons_of_neg _ (by simpa using hd)] at h
      rw [List.map_cons]
      by_cases hds : d.id = sel.id
      · rw [if_pos (by simp [hds])]
        rw [findChoice, List.find?_cons_of_pos _ (by simp [hsel])]
      · rw [if_neg (by simpa using hds)]
        rw [findChoice, List.find?_cons_of_neg _ (by simpa using hd)]
        exact ih h

/-- Saving a record changes no lookup of a different id. -/
theorem findChoice_save_other {l : List Choice} {cid : Nat} {sel : Choice}
    (hne : cid ≠ sel.id) :
    findChoice (l.map (fun d => if d.id == sel.id then sel else d)) cid
      = findChoice l cid := by
  induction l with
  | nil => rfl
  | cons d t ih =>
    rw [List.map_cons]
    by_cases hds : d.id = sel.id
    · rw [if_pos (by simp [hds])]
      rw [findChoice, List.find?_cons_of_neg _ (by simpa using (hne ∘ Eq.symm))]
      have hdcid : ¬ d.id = cid := fun hcontra => hne (hcontra.symm.trans hds)
      rw [findChoice, List.find?_cons_of_neg _ (by simpa using hdcid)]
      exact ih
    · rw [if_neg (by simpa using hds)]
      by_cases hd : d.id = cid
      · rw [findChoice, List.find?_cons_of_pos _ (by simpa using hd)]
        rw [findChoice, List.find?_cons_of_pos _ (by simpa using hd)]
      · rw [findChoice, List.find?_cons_of_neg _ (by simpa using hd)]
        rw [findChoice, List.find?_cons_of_neg _ (by simpa using hd)]
        exact ih

/-- Primary-key uniqueness is inherited by a question's choice set. -/
theorem nodup_ids_choice_set {s : PollState}
    (hnd : (s.choices.map Choice.id).Nodup) (qid : Nat) :
    ((choice_set s qid).map Choice.id).Nodup :=
  hnd.sublist ((s.choices.filter_sublist).map Choice.id)

/-- The success path of the vote view: an authenticated request naming a
choice of the addressed question redirects to the results page, increments
exactly that counter by one, and changes no other counter. -/
theorem vote_success_spec {s : PollState} {req : Request} {pk : Nat}
    {q : Question} {c : Choice}
    (hauth : req.is_authenticated = true)
    (hq : findQuestion s pk = some q)
    (hc : c ∈ s.choices) (hcq : c.question = q.id)
    (hpost : req.post_choice = some c.id)
    (hnd : (s.choices.map Choice.id).Nodup) :
    (vote s req pk).1 = Response.redirectResults q.id
    ∧ getVotes (vote s req pk).2 c.id = some (c.votes + 1)
    ∧ getVotes s c.id = some c.votes
    ∧ ∀ cid2, cid2 ≠ c.id →
        getVotes (vote s req pk).2 cid2 = getVotes s cid2 := by
  have hmemcs : c ∈ choice_set s q.id :=
    List.mem_filter.mpr ⟨hc, by simp [hcq]⟩
  have hfc : findChoice (choice_set s q.id) c.id = some c :=
    findChoice_eq_some_of_nodup (nodup_ids_choice_set hnd q.id) hmemcs
  have hfall : findChoice s.choices c.id = some c :=
    findChoice_eq_some_of_nodup hnd hc
  have hv : vote s req pk =
      (Response.redirectResults q.id,
        save_choice s { c with votes := c.votes + 1 }) := by
    simp [vote, hauth, hq, hpost, hfc]
  have hupd := @findChoice_save_self s.choices c.id c
    { c with votes := c.votes + 1 } hfall rfl
  refine ⟨by rw [hv], ?_, ?_, ?_⟩
  · rw [hv]
    simp only [getVotes, save_choice]
    rw [hupd]
    rfl
  · simp [getVotes, hfall]
  · intro cid2 hne
    rw [hv]
    simp only [getVotes, save_choice]
    rw [@findChoice_save_other s.choices cid2
      { c with votes := c.votes + 1 } hne]

/-- The two spelled-out reasons of the hidden predicate make
`is_hidden` true. -/
theorem hidden_of_cases {s : PollState} {q : Question} {now : Int}
    (h : now < q.pub_date ∨ choice_set s q.id = []) :
    q.is_hidden s now = true := by
  rcases h with h | h
  · simp [Question.is_hidden, h]
  · simp [Question.is_hidden, h]

/-- A hidden question is invisible to a non-superuser in
`DetailView.get_object`. -/
theorem detail_get_object_hidden {s : PollState} {now : Int} {req : Request}
    {pk : Nat} {q : Question}
    (hq : findQuestion s pk = some q) (hhid : q.is_hidden s now = true)
    (hsup : req.is_superuser = false) :
    detail_get_object s now req pk = none := by
  simp [detail_get_object, hq, hhid, hsup]

/-- A superuser bypasses the hidden check in `DetailView.get_object`. -/
theorem detail_get_object_superuser {s : PollState} {now : Int}
    {req : Request} {pk : Nat} {q : Question}
    (hq : findQuestion s pk = some q) (hsup : req.is_superuser = true) :
    detail_get_object s now req pk = some q := by
  simp [detail_get_object, hq, hsup]

end Polls

namespace Polls

/-- **C3.** The claim reads `was_published_recently` as the half-open
window `(now - 1 day, now]`, excluding the lower endpoint.  The code uses
`now - timedelta(days=1) <= self.pub_date`, a closed lower bound: at
`pub_date = now - oneDay` the method returns `true` although the claimed
window excludes that instant. -/
theorem C3_counterexample_closed_lower_bound :
    Question.was_published_recently ⟨1, "q", 0⟩ oneDay = true ∧
      ¬ (oneDay - oneDay < (Question.mk 1 "q" 0).pub_date) := by
  constructor
  · rfl
  · decide

/-- **C3 (amended).** `was_published_recently` returns `true` exactly when
`pub_date` lies in the closed window `[now - 1 day, now]`: greater than or
equal to `now` minus one day, and less than or equal to `now`. -/
theorem C3_was_published_recently_closed_window (q : Question) (now : Int) :
    q.was_published_recently now = true ↔
      now - oneDay ≤ q.pub_date ∧ q.pub_date ≤ now := by
  simp [Question.was_published_recently]

end Polls

namespace Polls

/-- **C5.** `is_hidden` returns true if and only if the publication date
is strictly in the future or the question has zero associated choices. -/
theorem C5_is_hidden_iff (s : PollState) (q : Question) (now : Int) :
    q.is_hidden s now = true ↔
      (now < q.pub_date ∨ choice_set s q.id = []) := by
  simp [Question.is_hidden, List.isEmpty_iff]

/-- **C7.** For every question, the choices ordered by descending votes
form a non-increasing sequence of vote counters and are a permutation of
the question's choice set; a newly created choice starts with zero
votes. -/
theorem C7_choice_order (s : PollState) (qid : Nat) :
    List.Sorted votesGe (order_by_votes_desc (choice_set s qid))
    ∧ (order_by_votes_desc (choice_set s qid)).Perm (choice_set s qid)
    ∧ ∀ i j t, (mkChoice i j t).votes = 0 :=
  ⟨List.sorted_insertionSort votesGe _, List.perm_insertionSort votesGe _,
   fun _ _ _ => rfl⟩

/-- **C10.** The vote increment is a non-atomic read-then-write: in the
interleaving where both voters read before either writes, two complete
votes on the same choice increase the counter by only one (a lost update),
whereas the serial schedule increases it by two. -/
theorem C10_lost_update :
    isInterleaving
      [VoteStep.read0, VoteStep.read1, VoteStep.write0, VoteStep.write1]
    ∧ (∀ v t0 t1 : Int,
        (runRace ⟨v, t0, t1⟩
          [VoteStep.read0, VoteStep.read1,
            VoteStep.write0, VoteStep.write1]).votes = v + 1)
    ∧ (∀ v t0 t1 : Int,
        (runRace ⟨v, t0, t1⟩
          [VoteStep.read0, VoteStep.write0,
            VoteStep.read1, VoteStep.write1]).votes = v + 2) := by
  refine ⟨⟨rfl, rfl⟩, fun v t0 t1 => rfl, fun v t0 t1 => ?_⟩
  show v + 1 + 1 = v + 2
  omega

/-- **C1.** A logged-in POST to the vote route naming a choice of the
addressed question redirects to that question's results page, increments
that choice's counter from its previous value by exactly one, and leaves
every other counter unchanged. -/
theorem C1_valid_vote (s : PollState) (req : Request) (pk : Nat)
    (q : Question) (c : Choice)
    (hauth : req.is_authenticated = true)
    (hq : findQuestion s pk = some q)
    (hc : c ∈ s.choices) (hcq : c.question = q.id)
    (hpost : req.post_choice = some c.id)
    (hnd : (s.choices.map Choice.id).Nodup) :
    (vote s req pk).1 = Response.redirectResults q.id
    ∧ getVotes (vote s req pk).2 c.id = some (c.votes + 1)
    ∧ getVotes s c.id = some c.votes
    ∧ ∀ cid2, cid2 ≠ c.id →
        getVotes (vote s req pk).2 cid2 = getVotes s cid2 :=
  vote_success_spec hauth hq hc hcq hpost hnd

/-- Concrete run of C1: one question with two zero-vote choices; voting
for choice 1 redirects and moves it from 0 to 1 while choice 2 keeps its
counter. -/
theorem C1_valid_vote_witness :
    (vote ⟨[⟨1, "q", 0⟩], [⟨1, 1, "a", 0⟩, ⟨2, 1, "b", 0⟩]⟩
        ⟨true, false, some 1⟩ 1).1 = Response.redirectResults 1
    ∧ getVotes (vote ⟨[⟨1, "q", 0⟩], [⟨1, 1, "a", 0⟩, ⟨2, 1, "b", 0⟩]⟩
        ⟨true, false, some 1⟩ 1).2 1 = some (0 + 1)
    ∧ getVotes ⟨[⟨1, "q", 0⟩], [⟨1, 1, "a", 0⟩, ⟨2, 1, "b", 0⟩]⟩ 1 = some 0
    ∧ getVotes (vote ⟨[⟨1, "q", 0⟩], [⟨1, 1, "a", 0⟩, ⟨2, 1, "b", 0⟩]⟩
        ⟨true, false, some 1⟩ 1).2 2
      = getVotes ⟨[⟨1, "q", 0⟩], [⟨1, 1, "a", 0⟩, ⟨2, 1, "b", 0⟩]⟩ 2 := by
  have h := C1_valid_vote ⟨[⟨1, "q", 0⟩], [⟨1, 1, "a", 0⟩, ⟨2, 1, "b", 0⟩]⟩
    ⟨true, false, some 1⟩ 1 ⟨1, "q", 0⟩ ⟨1, 1, "a", 0⟩ rfl rfl
    (List.Mem.head _) rfl rfl (by decide)
  exact ⟨h.1, h.2.1, h.2.2.1, h.2.2.2 2 (by decide)⟩

/-- **C2.** A hidden question (future publication date or zero choices)
yields a 404 on both the detail and the results route for a non-admin
caller, while an admin caller receives the question rendered normally. -/
theorem C2_hidden_not_found (s : PollState) (now : Int) (pk : Nat)
    (q : Question) (req radmin : Request)
    (hq : findQuestion s pk = some q)
    (hhid : now < q.pub_date ∨ choice_set s q.id = [])
    (huser : req.is_superuser = false)
    (hadmin : radmin.is_superuser = true) :
    questionView s now req pk = Response.notFound
    ∧ resultsView s now req pk = Response.notFound
    ∧ questionView s now radmin pk = Response.renderQuestion q.id
    ∧ resultsView s now radmin pk = Response.renderResults q.id := by
  have h1 := detail_get_object_hidden hq (hidden_of_cases hhid) huser
  have h2 := @detail_get_object_superuser s now radmin pk q hq hadmin
  exact ⟨by simp [questionView, h1], by simp [resultsView, h1],
    by simp [questionView, h2], by simp [resultsView, h2]⟩

/-- Concrete run of C2: a future-dated question with no choices is a 404
for an anonymous caller and rendered for a superuser. -/
theorem C2_hidden_not_found_witness :
    questionView ⟨[⟨1, "q", 100⟩], []⟩ 0 ⟨false, false, none⟩ 1
        = Response.notFound
    ∧ resultsView ⟨[⟨1, "q", 100⟩], []⟩ 0 ⟨false, false, none⟩ 1
        = Response.notFound
    ∧ questionView ⟨[⟨1, "q", 100⟩], []⟩ 0 ⟨true, true, none⟩ 1
        = Response.renderQuestion 1
    ∧ resultsView ⟨[⟨1, "q", 100⟩], []⟩ 0 ⟨true, true, none⟩ 1
        = Response.renderResults 1 :=
  C2_hidden_not_found ⟨[⟨1, "q", 100⟩], []⟩ 0 1 ⟨1, "q", 100⟩
    ⟨false, false, none⟩ ⟨true, true, none⟩ rfl (Or.inl (by decide)) rfl rfl

/-- **C4.** A logged-in POST to the vote route whose choice parameter is
missing or names no choice of the addressed question re-renders the detail
template with the inline error message, is not a 404, and leaves the
database state unchanged. -/
theorem C4_invalid_vote (s : PollState) (req : Request) (pk : Nat)
    (q : Question)
    (hauth : req.is_authenticated = true)
    (hq : findQuestion s pk = some q)
    (hbad : req.post_choice = none
      ∨ ∃ cid, req.post_choice = some cid
          ∧ findChoice (choice_set s q.id) cid = none) :
    (vote s req pk).1 = Response.renderDetail q.id (some noChoiceMessage)
    ∧ (vote s req pk).1 ≠ Response.notFound
    ∧ (vote s req pk).2 = s := by
  have hv : vote s req pk
      = (Response.renderDetail q.id (some noChoiceMessage), s) := by
    rcases hbad with h | ⟨cid, hp, hf⟩
    · simp [vote, hauth, hq, h]
    · simp [vote, hauth, hq, hp, hf]
  rw [hv]
  exact ⟨rfl, fun hcontra => Response.noConfusion hcontra, rfl⟩

/-- Concrete run of C4: a logged-in POST without a choice parameter
re-renders the form and changes nothing. -/
theorem C4_invalid_vote_witness :
    (vote ⟨[⟨1, "q", 0⟩], [⟨1, 1, "a", 0⟩, ⟨2, 1, "b", 0⟩]⟩
        ⟨true, false, none⟩ 1).1
      = Response.renderDetail 1 (some noChoiceMessage)
    ∧ (vote ⟨[⟨1, "q", 0⟩], [⟨1, 1, "a", 0⟩, ⟨2, 1, "b", 0⟩]⟩
        ⟨true, false, none⟩ 1).1 ≠ Response.notFound
    ∧ (vote ⟨[⟨1, "q", 0⟩], [⟨1, 1, "a", 0⟩, ⟨2, 1, "b", 0⟩]⟩
        ⟨true, false, none⟩ 1).2
      = ⟨[⟨1, "q", 0⟩], [⟨1, 1, "a", 0⟩, ⟨2, 1, "b", 0⟩]⟩ :=
  C4_invalid_vote ⟨[⟨1, "q", 0⟩], [⟨1, 1, "a", 0⟩, ⟨2, 1, "b", 0⟩]⟩
    ⟨true, false, none⟩ 1 ⟨1, "q", 0⟩ rfl rfl (Or.inl rfl)

/-- **C6.** Creating a new user account (a save with a fresh primary key)
creates exactly one companion profile linked to that user, and saving the
already-existing user again adds no further profile. -/
theorem C6_profile_auto_created (st : AuthState) (u : User)
    (hnew : ∀ v ∈ st.users, v.id ≠ u.id)
    (hnoprof : profileCount st u.id = 0) :
    profileCount (save_user st u) u.id = 1
    ∧ (save_user (save_user st u) u).profiles = (save_user st u).profiles := by
  have hany : st.users.any (fun v => v.id == u.id) = false := by
    rw [List.any_eq_false]
    intro v hv
    simpa using hnew v hv
  have hnp : st.profiles.countP (fun p => p.user == u.id) = 0 := hnoprof
  constructor
  · simp [save_user, hany, create_and_save_profile, profileCount,
      List.countP_append, hnp]
  · simp [save_user, hany, create_and_save_profile, List.any_append]

/-- Concrete run of C6: creating a first user in an empty database yields
exactly one profile, and re-saving the user leaves the profile table
unchanged. -/
theorem C6_profile_auto_created_witness :
    profileCount (save_user ⟨[], []⟩ ⟨1, "alice", false, false⟩) 1 = 1
    ∧ (save_user (save_user ⟨[], []⟩ ⟨1, "alice", false, false⟩)
          ⟨1, "alice", false, false⟩).profiles
      = (save_user ⟨[], []⟩ ⟨1, "alice", false, false⟩).profiles :=
  C6_profile_auto_created ⟨[], []⟩ ⟨1, "alice", false, false⟩
    (fun v hv => absurd hv (List.not_mem_nil v)) rfl

/-- **C8.** The vote route performs no hidden-question check: a logged-in
valid vote on a choice of a future-dated question redirects and increments
the counter, even though the detail and results routes answer 404 for the
same question to a non-superuser. -/
theorem C8_vote_no_hidden_check (s : PollState) (req req2 : Request)
    (pk : Nat) (q : Question) (c : Choice) (now : Int)
    (hauth : req.is_authenticated = true)
    (hq : findQuestion s pk = some q)
    (hfut : now < q.pub_date)
    (hc : c ∈ s.choices) (hcq : c.question = q.id)
    (hpost : req.post_choice = some c.id)
    (hnd : (s.choices.map Choice.id).Nodup)
    (hsup : req2.is_superuser = false) :
    (vote s req pk).1 = Response.redirectResults q.id
    ∧ getVotes (vote s req pk).2 c.id = some (c.votes + 1)
    ∧ questionView s now req2 pk = Response.notFound
    ∧ resultsView s now req2 pk = Response.notFound := by
  have hv := vote_success_spec hauth hq hc hcq hpost hnd
  have hg := detail_get_object_hidden hq (hidden_of_cases (Or.inl hfut)) hsup
  exact ⟨hv.1, hv.2.1, by simp [questionView, hg], by simp [resultsView, hg]⟩

/-- Concrete run of C8: a future-dated question with one choice accepts a
logged-in vote (counter 0 becomes 1) while its detail and results routes
are 404 for an anonymous caller. -/
theorem C8_vote_no_hidden_check_witness :
    (vote ⟨[⟨1, "q", 100⟩], [⟨1, 1, "a", 0⟩]⟩ ⟨true, false, some 1⟩ 1).1
        = Response.redirectResults 1
    ∧ getVotes (vote ⟨[⟨1, "q", 100⟩], [⟨1, 1, "a", 0⟩]⟩
        ⟨true, false, some 1⟩ 1).2 1 = some (0 + 1)
    ∧ questionView ⟨[⟨1, "q", 100⟩], [⟨1, 1, "a", 0⟩]⟩ 0
        ⟨false, false, none⟩ 1 = Response.notFound
    ∧ resultsView ⟨[⟨1, "q", 100⟩], [⟨1, 1, "a", 0⟩]⟩ 0
        ⟨false, false, none⟩ 1 = Response.notFound :=
  C8_vote_no_hidden_check ⟨[⟨1, "q", 100⟩], [⟨1, 1, "a", 0⟩]⟩
    ⟨true, false, some 1⟩ ⟨false, false, none⟩ 1 ⟨1, "q", 100⟩
    ⟨1, 1, "a", 0⟩ 0 rfl rfl (by decide) (List.Mem.head _) rfl rfl
    (by decide) rfl

/-- **C9 (counterexample).** With six published questions the index holds
only five: question 1 has a past publication date and belongs to the
table, yet it is absent from the index, so the index is not "exactly those
with publication date at most now". -/
theorem C9_counterexample_sixth_question :
    (Question.mk 1 "a" 1) ∈
      [Question.mk 1 "a" 1, Question.mk 2 "b" 2, Question.mk 3 "c" 3,
        Question.mk 4 "d" 4, Question.mk 5 "e" 5, Question.mk 6 "f" 6]
    ∧ (Question.mk 1 "a" 1).pub_date ≤ 10
    ∧ (Question.mk 1 "a" 1) ∉ get_queryset
        [Question.mk 1 "a" 1, Question.mk 2 "b" 2, Question.mk 3 "c" 3,
          Question.mk 4 "d" 4, Question.mk 5 "e" 5, Question.mk 6 "f" 6]
        10 :=
  ⟨List.Mem.head _, by decide, by decide⟩

/-- **C9 (amended).** The index queryset holds exactly
min 5 (number of questions with publication date at most now) questions,
sorted by descending publication date; every listed question belongs to
the table and has publication date at most now; whenever at most five
qualify the index is exactly the qualifying questions; any qualifying
question left out is no more recent than every listed one (the slice keeps
the five most recent); and the queryset never consults the choice table,
so a past question with zero choices appears in the index even though its
detail route answers 404. -/
theorem C9_index_top_five (questions : List Question) (now : Int) :
    (get_queryset questions now).length
        = min 5 (questions.filter (fun q => decide (q.pub_date ≤ now))).length
    ∧ List.Sorted pubDateGe (get_queryset questions now)
    ∧ (∀ q ∈ get_queryset questions now, q ∈ questions ∧ q.pub_date ≤ now)
    ∧ ((questions.filter (fun q => decide (q.pub_date ≤ now))).length ≤ 5 →
        ∀ q, q ∈ get_queryset questions now ↔
          (q ∈ questions ∧ q.pub_date ≤ now))
    ∧ (∀ q ∈ get_queryset questions now, ∀ p ∈ questions,
        p.pub_date ≤ now → p ∉ get_queryset questions now →
          p.pub_date ≤ q.pub_date)
    ∧ get_queryset [⟨1, "q", 0⟩] 10 = [⟨1, "q", 0⟩]
    ∧ questionView ⟨[⟨1, "q", 0⟩], []⟩ 10 ⟨false, false, none⟩ 1
        = Response.notFound := by
  have hperm := List.perm_insertionSort pubDateGe
    (questions.filter (fun q => decide (q.pub_date ≤ now)))
  have hsort := List.sorted_insertionSort pubDateGe
    (questions.filter (fun q => decide (q.pub_date ≤ now)))
  refine ⟨?_, ?_, ?_, ?_, ?_, rfl, rfl⟩
  · rw [get_queryset, List.length_take, hperm.length_eq]
  · exact List.Pairwise.sublist (List.take_sublist 5 _) hsort
  · intro q hqmem
    simp only [get_queryset] at hqmem
    have hql := List.mem_of_mem_take hqmem
    have hqf := List.mem_filter.mp (hperm.mem_iff.mp hql)
    exact ⟨hqf.1, by simpa using hqf.2⟩
  · intro hfew q
    have hlen : (List.insertionSort pubDateGe
        (questions.filter (fun q => decide (q.pub_date ≤ now)))).length
          ≤ 5 := by
      rw [hperm.length_eq]
      exact hfew
    rw [get_queryset, List.take_of_length_le hlen, hperm.mem_iff,
      List.mem_filter]
    simp
  · intro q hqmem p hp hpnow hpnot
    simp only [get_queryset] at hqmem hpnot
    have hpl : p ∈ List.insertionSort pubDateGe
        (questions.filter (fun q => decide (q.pub_date ≤ now))) :=
      hperm.mem_iff.mpr (List.mem_filter.mpr ⟨hp, by simpa using hpnow⟩)
    have hsplit := List.take_append_drop 5 (List.insertionSort pubDateGe
      (questions.filter (fun q => decide (q.pub_date ≤ now))))
    rw [← hsplit] at hsort hpl
    rcases List.mem_append.mp hpl with h | h
    · exact absurd h hpnot
    · exact (List.pairwise_append.mp hsort).2.2 q hqmem p h

/-- Concrete run of C9: with one past and one future question the index
has length min 5 1 and contains the past question. -/
theorem C9_index_top_five_witness :
    (get_queryset [⟨1, "a", 0⟩, ⟨2, "b", 20⟩] 10).length
        = min 5 ([(⟨1, "a", 0⟩ : Question), ⟨2, "b", 20⟩].filter
            (fun q => decide (q.pub_date ≤ 10))).length
    ∧ ((⟨1, "a", 0⟩ : Question) ∈ get_queryset [⟨1, "a", 0⟩, ⟨2, "b", 20⟩] 10
        ↔ ((⟨1, "a", 0⟩ : Question) ∈ [(⟨1, "a", 0⟩ : Question), ⟨2, "b", 20⟩]
            ∧ (Question.mk 1 "a" 0).pub_date ≤ 10)) := by
  have h := C9_index_top_five [⟨1, "a", 0⟩, ⟨2, "b", 20⟩] 10
  exact ⟨h.1, h.2.2.2.1 (by decide) _⟩

end Polls
